import Mathlib

/-!
Shallow embedding of src/backend/rag_pipeline.py: the per-user document
index and retrieval pipeline (chunking, FAISS index lifecycle, metadata
ledger, consistency repair, retrieval policy).

The per-user on-disk layout (the uploaded source files, chunks.pkl,
faiss.index and metadata.json under one directory per user id) is
modelled by the state St below; every operation acts on one user's
state, so the user id parameter of the Python functions is dropped.
External collaborators are modelled at their boundary:

* text extraction together with the RecursiveCharacterTextSplitter: a
  file on disk is represented by its extraction outcome (none when the
  type is unsupported, the file is unreadable, or parsing raises), and
  Env.splitter stands for the deterministic splitter applied to
  extracted text that is nonempty after strip();
* the SentenceTransformer embedding model: Env.embed gives the vector
  for one text, and Env.embedFails models encode raising an error
  (which the Python code catches);
* FAISS IndexFlatL2: a list of rows (vectors); searchL2 returns the
  k nearest rows by squared L2 distance, ascending, per the index
  contract (stable on ties);
* deserialization failure of faiss.read_index or pickle.load is
  modelled by Env.loadFails.

Vectors are lists of rationals; the fixed dimension D = 384 plays no
role in the verified properties.
-/

namespace Rag

abbrev Vec := List ℚ

/-- One entry of metadata.json: file name, chunk count, upload time. -/
structure MetaEntry where
  file : String
  chunks : Nat
  uploadedAt : String
deriving DecidableEq, Repr

/-- Persisted per-user state: the uploaded files (file name to
extraction outcome), faiss.index, chunks.pkl and metadata.json
(none means the artifact is absent from disk). -/
structure St where
  files : List (String × Option String)
  indexFile : Option (List Vec)
  chunksFile : Option (List String)
  metaFile : Option (List MetaEntry)
deriving DecidableEq, Repr

/-- Environment of one operation: the external collaborators. -/
structure Env where
  splitter : String → List String
  embed : String → Vec
  embedFails : Bool
  loadFails : Bool
  now : String

/-- chunk_file (rag_pipeline.py:64): extraction outcome to chunk list.
An unsupported type, an unreadable file or a parse error yields []
(modelled by ext = none); text that is empty after strip() — that is,
text all of whose characters are whitespace — yields []; otherwise the
splitter runs on the text. -/
def chunk_file (env : Env) (ext : Option String) : List String :=
  match ext with
  | none => []
  | some t => if t.toList.all Char.isWhitespace then [] else env.splitter t

/-- embed_model.encode on a batch: one vector per text, or a raised
error (none). -/
def encode (env : Env) (texts : List String) : Option (List Vec) :=
  if env.embedFails then none else some (texts.map env.embed)

/-- build_faiss_index (rag_pipeline.py:137): the rows of the freshly
built index, or none when chunks is empty or encoding raises. -/
def build_faiss_index (env : Env) (chunks : List String) : Option (List Vec) :=
  if chunks = [] then none else encode env chunks

/-- save_user_index (rag_pipeline.py:153): write chunks.pkl and
faiss.index. -/
def save_user_index (index : List Vec) (chunks : List String) (s : St) : St :=
  { s with chunksFile := some chunks, indexFile := some index }

/-- clear_user_index (rag_pipeline.py:166): remove both artifacts. -/
def clear_user_index (s : St) : St :=
  { s with chunksFile := none, indexFile := none }

/-- load_user_index (rag_pipeline.py:259): (None, None) unless both
artifacts exist on disk and deserialize. -/
def load_user_index (env : Env) (s : St) : Option (List Vec) × Option (List String) :=
  match s.indexFile, s.chunksFile with
  | some idx, some cs => if env.loadFails then (none, none) else (some idx, some cs)
  | _, _ => (none, none)

/-- update_metadata (rag_pipeline.py:40): append one entry; a missing
or unreadable metadata.json starts from the empty list. -/
def update_metadata (env : Env) (name : String) (numChunks : Nat) (s : St) : St :=
  { s with metaFile := some ((s.metaFile.getD []) ++ [⟨name, numChunks, env.now⟩]) }

/-- Result of calling chunk_file on a stored file: a missing file makes
chunk_file raise, which it catches, yielding []. -/
def chunksOfFile (env : Env) (files : List (String × Option String)) (name : String) :
    List String :=
  match List.lookup name files with
  | none => []
  | some ext => chunk_file env ext

/-- The loop of rebuild_index_from_files (rag_pipeline.py:199): skip
entries whose file is missing on disk, re-chunk the rest, and keep
(in order) the entries with a nonempty fresh chunking, recomputing
their chunk counts; returns (all_chunks, new_metadata). -/
def rebuildScan (env : Env) (files : List (String × Option String)) :
    List MetaEntry → List String × List MetaEntry
  | [] => ([], [])
  | e :: rest =>
    match List.lookup e.file files with
    | none => rebuildScan env files rest
    | some ext =>
      let cs := chunk_file env ext
      if cs = [] then rebuildScan env files rest
      else
        let r := rebuildScan env files rest
        (cs ++ r.1,
          ⟨e.file, cs.length, if e.uploadedAt = "" then env.now else e.uploadedAt⟩ :: r.2)

/-- rebuild_index_from_files (rag_pipeline.py:179): with no metadata
file, clear the artifacts and succeed; otherwise scan the ledger,
rewrite metadata.json with the recomputed entries, and then either
clear (zero chunks), fail (index build failed; metadata already
rewritten), or persist the fresh index and chunks. -/
def rebuild_index_from_files (env : Env) (s : St) : Bool × St :=
  match s.metaFile with
  | none => (true, clear_user_index s)
  | some metadata =>
    let scan := rebuildScan env s.files metadata
    let s1 : St := { s with metaFile := some scan.2 }
    if scan.1 = [] then (true, clear_user_index s1)
    else
      match build_faiss_index env scan.1 with
      | none => (false, s1)
      | some idx => (true, save_user_index idx scan.1 s1)

/-- Best-effort removal of the stored file (rag_pipeline.py:238). -/
def removeFile (name : String) (s : St) : St :=
  { s with files := s.files.filter (fun p => p.1 != name) }

/-- Filtering the ledger after a delete (rag_pipeline.py:247): a missing
metadata file is left missing. -/
def removeMetaEntry (name : String) (s : St) : St :=
  match s.metaFile with
  | none => s
  | some m => { s with metaFile := some (m.filter (fun e => e.file != name)) }

/-- delete_user_document (rag_pipeline.py:229): remove the file, filter
the ledger, then rebuild from the remaining files. -/
def delete_user_document (env : Env) (name : String) (s : St) : Bool × St :=
  rebuild_index_from_files env (removeMetaEntry name (removeFile name s))

/-- add_new_document (rag_pipeline.py:278).  Note the first branch: when
no index file exists, build_faiss_index already adds one row per chunk,
and the shared append block (rag_pipeline.py:310) then encodes the same
chunks again and appends them a second time. -/
def add_new_document (env : Env) (name : String) (s : St) : Bool × St :=
  let cs := chunksOfFile env s.files name
  if cs = [] then (false, s)
  else
    match s.indexFile with
    | none =>
      match build_faiss_index env cs with
      | none => (false, s)
      | some idx0 =>
        match encode env cs with
        | none => (false, s)
        | some newEmb =>
          (true, update_metadata env name cs.length
            (save_user_index (idx0 ++ newEmb) cs s))
    | some _ =>
      match load_user_index env s with
      | (some idx0, existingOpt) =>
        let existing := existingOpt.getD []
        match encode env cs with
        | none => (false, s)
        | some newEmb =>
          (true, update_metadata env name cs.length
            (save_user_index (idx0 ++ newEmb) (existing ++ cs) s))
      | (none, existingOpt) =>
        let allC := existingOpt.getD [] ++ cs
        match build_faiss_index env allC with
        | none => (false, s)
        | some idx =>
          (true, update_metadata env name cs.length (save_user_index idx allC s))

/-- Squared L2 distance, the IndexFlatL2 metric. -/
def sqDist (a b : Vec) : ℚ := ((a.zip b).map (fun p => (p.1 - p.2) ^ 2)).sum

/-- Comparison of scored rows by distance. -/
def distLE (a b : Nat × ℚ) : Prop := a.2 ≤ b.2

instance : DecidableRel distLE := fun a b => inferInstanceAs (Decidable (a.2 ≤ b.2))

instance : IsTotal (Nat × ℚ) distLE := ⟨fun a b => le_total a.2 b.2⟩

instance : IsTrans (Nat × ℚ) distLE := ⟨fun _ _ _ h1 h2 => le_trans h1 h2⟩

/-- index.search(query_vector, k): the k nearest rows by squared L2
distance, ascending, as (row position, distance) pairs; on ties the
earlier row comes first (stable sort). -/
def searchL2 (rows : List Vec) (q : Vec) (k : Nat) : List (Nat × ℚ) :=
  (List.insertionSort distLE ((rows.enum).map (fun p => (p.1, sqDist q p.2)))).take k

/-- D[0][0]: the distance of the first returned row; the FAISS sentinel
stands in when the index is empty (unreachable on the query path). -/
def nearestDist : List (Nat × ℚ) → ℚ
  | [] => (2 : ℚ) ^ 128
  | p :: _ => p.2

def RELEVANCE_THRESHOLD : ℚ := 6 / 5

def noDocsPrompt (q : String) : String :=
  "You have no uploaded documents. Answer this generally:\n\nQ: " ++ q ++ "\nA:"

def noRelevantPrompt (q : String) : String :=
  "No relevant info found in your uploaded docs. Answer generally:\n\nQ: " ++ q ++ "\nA:"

def groundedPrompt (context q : String) : String :=
  "Use the context below to answer:\n\nContext:\n" ++ context ++ "\n\nQ: " ++ q ++ "\nA:"

/-- Prompt selection of get_response_stream (rag_pipeline.py:358) once
an index and a nonempty chunk list are in hand: search k = 3, keep the
returned positions below len(chunks), then pick the template. -/
def selectPrompt (rows : List Vec) (cs : List String) (qv : Vec) (q : String) : String :=
  let res := searchL2 rows qv 3
  let valid := (res.map Prod.fst).filter (fun i => decide (i < cs.length))
  if valid = [] ∨ nearestDist res > RELEVANCE_THRESHOLD then noRelevantPrompt q
  else groundedPrompt (String.intercalate "\n\n" (valid.map (fun i => cs.getD i ""))) q

/-- Load plus auto-repair of get_response_stream (rag_pipeline.py:336):
the (index, chunks) pair the search and prompt construction will use,
or none when the no-documents branch (rag_pipeline.py:355) is taken;
the repair persists the rebuilt index before the search runs. -/
def queryCore (env : Env) (s : St) : Option (List Vec × List String) × St :=
  match load_user_index env s with
  | (none, _) => (none, s)
  | (some idx, csOpt) =>
    let cs := csOpt.getD []
    if idx.length ≠ cs.length then
      if cs ≠ [] then
        match build_faiss_index env cs with
        | some idx2 => (some (idx2, cs), save_user_index idx2 cs s)
        | none => (none, s)
      else (none, s)
    else if cs = [] then (none, s) else (some (idx, cs), s)

/-- get_response_stream (rag_pipeline.py:332): the prompt handed to the
generation collaborator, with the possibly repaired state; none models
encode([query]) raising out of the function. -/
def get_response_stream (env : Env) (q : String) (s : St) : Option String × St :=
  match queryCore env s with
  | (none, s1) => (some (noDocsPrompt q), s1)
  | (some (rows, cs), s1) =>
    if env.embedFails then (none, s1)
    else (some (selectPrompt rows cs (env.embed q) q), s1)

/-- Retrieval policy in the words of the specification: search the k = 3
nearest rows, discard every returned row position at or above the chunk
count, and if the surviving set is empty or the single nearest distance
exceeds 1.2 use the ungrounded template with no context, else the
grounded template over the surviving chunks' text, nearest-first. -/
def claimRetrieval (rows : List Vec) (cs : List String) (qv : Vec) (q : String) : String :=
  let res := searchL2 rows qv 3
  let surviving := res.filter (fun p => decide (p.1 < cs.length))
  if surviving = [] ∨ nearestDist res > RELEVANCE_THRESHOLD then noRelevantPrompt q
  else
    groundedPrompt (String.intercalate "\n\n" (surviving.map (fun p => cs.getD p.1 ""))) q

/-- One driving operation of the per-user state. -/
inductive Op where
  | ingest (name : String)
  | remove (name : String)
deriving DecidableEq, Repr

/-- Run one operation under its environment, keeping the new state. -/
def runOp (p : Env × Op) (s : St) : St :=
  match p.2 with
  | .ingest n => (add_new_document p.1 n s).2
  | .remove n => (delete_user_document p.1 n s).2

/-- Run a finite sequence of ingest and remove operations. -/
def run (ops : List (Env × Op)) (s : St) : St := ops.foldl (fun s p => runOp p s) s

/-- The claimed invariant: the persisted index row count equals the
persisted chunk count. -/
def consistent (s : St) : Prop :=
  (s.indexFile.getD []).length = (s.chunksFile.getD []).length

/-- Empty persisted state over a given set of uploaded files. -/
def st0 (files : List (String × Option String)) : St := ⟨files, none, none, none⟩

/-- Incrementally add the named files in order. -/
def addAll (env : Env) (names : List String) (s : St) : St :=
  names.foldl (fun s n => (add_new_document env n s).2) s

/-- Chunk sequence produced by incrementally adding the named files. -/
def incrChunks (env : Env) (files : List (String × Option String)) (names : List String) :
    List String :=
  (names.map (chunksOfFile env files)).flatten

/-- Ledger produced by incrementally adding the named files: one entry
per file with a nonempty chunking, in order. -/
def incrMeta (env : Env) (files : List (String × Option String)) (names : List String) :
    List MetaEntry :=
  names.filterMap (fun n =>
    let cs := chunksOfFile env files n
    if cs = [] then none else some ⟨n, cs.length, env.now⟩)

instance (s : St) : Decidable (consistent s) :=
  inferInstanceAs (Decidable ((s.indexFile.getD []).length = (s.chunksFile.getD []).length))

/-! Concrete environments and states used by the witnesses and
counterexamples below. -/

/-- A benign environment: a one-chunk splitter, a constant embedding,
no failures. -/
def envC1 : Env := ⟨fun t => [t], fun _ => [1], false, false, "t0"⟩

/-- An environment in which the embedding provider raises. -/
def envFail : Env := ⟨fun t => [t], fun _ => [1], true, false, "t1"⟩

/-- An environment in which loading the persisted artifacts fails. -/
def envLoadFail : Env := ⟨fun t => [t], fun _ => [1], false, true, "t0"⟩

/-- A state whose persisted index has one row too few for its two
chunks. -/
def stM : St :=
  ⟨[("a.txt", some "hello")], some [[5]], some ["hello", "hi"], some [⟨"a.txt", 2, "t0"⟩]⟩

/-- A single-document state (with the doubled index rows the first add
actually produces). -/
def stD : St :=
  ⟨[("a.txt", some "hello")], some [[1], [1]], some ["hello"], some [⟨"a.txt", 1, "t0"⟩]⟩

/-- A consistent three-chunk state whose ledger references one file
that is missing on disk. -/
def stC6 : St :=
  ⟨[("a.txt", some "hello")], some [[1], [1], [1]], some ["x", "y", "z"],
    some [⟨"gone.txt", 2, "t0"⟩, ⟨"a.txt", 1, "t0"⟩]⟩

/-- A one-chunk state whose ledger references a missing file. -/
def stC7 : St :=
  ⟨[("b.txt", some "world")], some [[2]], some ["w"],
    some [⟨"lost.txt", 1, "t0"⟩, ⟨"b.txt", 1, "t0"⟩]⟩

/-! Shared helper lemmas. -/

/-- A rebuild that reports failure has not touched the persisted index
or chunk store: the only write that has happened is the ledger one. -/
theorem rebuild_fail_keeps_index_chunks (env : Env) (s : St)
    (h : (rebuild_index_from_files env s).1 = false) :
    (rebuild_index_from_files env s).2.indexFile = s.indexFile ∧
    (rebuild_index_from_files env s).2.chunksFile = s.chunksFile := by
  unfold rebuild_index_from_files at h ⊢
  cases hm : s.metaFile with
  | none => rw [hm] at h; simp at h
  | some metadata =>
    rw [hm] at h
    dsimp only at h ⊢
    by_cases h1 : (rebuildScan env s.files metadata).1 = []
    · rw [if_pos h1] at h; simp at h
    · rw [if_neg h1] at h ⊢
      cases hb : build_faiss_index env (rebuildScan env s.files metadata).1 with
      | none => exact ⟨rfl, rfl⟩
      | some idx => rw [hb] at h; simp at h

/-- With a working embedding provider, rebuild_index_from_files always
reports success. -/
theorem rebuild_ok_of_embed_ok (env : Env) (s : St) (hEF : env.embedFails = false) :
    (rebuild_index_from_files env s).1 = true := by
  unfold rebuild_index_from_files
  cases hm : s.metaFile with
  | none => rfl
  | some metadata =>
    dsimp only
    by_cases h1 : (rebuildScan env s.files metadata).1 = []
    · simp [h1]
    · simp only [h1, ite_false, if_false]
      cases hb : build_faiss_index env (rebuildScan env s.files metadata).1 with
      | none =>
        exfalso
        unfold build_faiss_index encode at hb
        rw [if_neg h1, if_neg (by simp [hEF])] at hb
        exact Option.noConfusion hb
      | some idx => rfl

/-- The metadata file after any ledger-driven rebuild is the recomputed
scan of the old ledger. -/
theorem rebuild_metaFile (env : Env) (s : St) (m : List MetaEntry)
    (hm : s.metaFile = some m) :
    (rebuild_index_from_files env s).2.metaFile = some (rebuildScan env s.files m).2 := by
  unfold rebuild_index_from_files
  rw [hm]
  dsimp only
  by_cases h1 : (rebuildScan env s.files m).1 = []
  · simp [h1, clear_user_index]
  · simp only [h1, ite_false, if_false]
    cases build_faiss_index env (rebuildScan env s.files m).1 with
    | none => rfl
    | some idx => simp [save_user_index]

/-- A query against a state with no persisted index takes the
no-documents prompt and leaves the state alone. -/
theorem query_no_index (env : Env) (q : String) (s : St) (h : s.indexFile = none) :
    get_response_stream env q s = (some (noDocsPrompt q), s) := by
  unfold get_response_stream queryCore load_user_index
  rw [h]

/-- Removing a ledger entry leaves the stored files untouched. -/
theorem removeMetaEntry_files (name : String) (s : St) :
    (removeMetaEntry name s).files = s.files := by
  unfold removeMetaEntry
  cases s.metaFile <;> rfl

/-! Claim theorems. -/

/-- C1: the claim that every state reachable from the empty state by
ingest and remove operations satisfies index rows = chunk count is
violated by the code at the very first ingest: add_new_document builds
the fresh index from the chunks inside build_faiss_index and then
encodes and appends the same chunks a second time, so one one-chunk
document yields a persisted index of two rows over a one-entry chunk
store. -/
theorem C1_first_add_breaks_invariant :
    (run [(envC1, Op.ingest "a.txt")] (st0 [("a.txt", some "hello")])).indexFile
        = some [[1], [1]] ∧
    (run [(envC1, Op.ingest "a.txt")] (st0 [("a.txt", some "hello")])).chunksFile
        = some ["hello"] ∧
    ¬ consistent (run [(envC1, Op.ingest "a.txt")] (st0 [("a.txt", some "hello")])) :=
  ⟨by decide, by decide, by decide⟩

/-- C2: when a loaded index disagrees with the loaded chunk store and
the chunk store is nonempty, the query rebuilds the index from the
in-memory chunks and persists it, so the searched index has exactly
len(chunks) rows; and when the chunk store cannot be loaded the query
degrades to the no-documents prompt without failing. -/
theorem C2_mismatch_repair :
    (∀ env s idx cs, env.embedFails = false → env.loadFails = false →
        s.indexFile = some idx → s.chunksFile = some cs →
        idx.length ≠ cs.length → cs ≠ [] →
        queryCore env s
          = (some (cs.map env.embed, cs), save_user_index (cs.map env.embed) cs s) ∧
        (cs.map env.embed).length = cs.length) ∧
    (∀ env q s, env.loadFails = true →
        get_response_stream env q s = (some (noDocsPrompt q), s)) := by
  constructor
  · intro env s idx cs hEF hLF hi hc hne hcs
    refine ⟨?_, by simp⟩
    unfold queryCore load_user_index
    rw [hi, hc]
    simp only [hLF, Bool.false_eq_true, if_false, ite_false]
    dsimp only [Option.getD]
    rw [if_pos hne, if_pos hcs]
    have hb : build_faiss_index env cs = some (cs.map env.embed) := by
      unfold build_faiss_index encode
      rw [if_neg hcs]
      simp [hEF]
    rw [hb]
  · intro env q s hLT
    unfold get_response_stream queryCore load_user_index
    cases hi : s.indexFile with
    | none => rfl
    | some idx =>
      cases hc : s.chunksFile with
      | none => rfl
      | some cs => simp only [hLT, if_true, ite_true]

/-- C4: a file whose extraction fails or yields only whitespace chunks
to the empty list, and add_new_document then reports soft failure with
the whole persisted state unchanged (no ledger entry, no index write,
no chunk store write). -/
theorem C4_empty_extraction_is_soft (env : Env) (ext : Option String) (name : String)
    (s : St)
    (hext : ext = none ∨ ∃ t, ext = some t ∧ t.toList.all Char.isWhitespace = true)
    (hl : List.lookup name s.files = some ext) :
    chunk_file env ext = [] ∧ add_new_document env name s = (false, s) := by
  have hcf : chunk_file env ext = [] := by
    rcases hext with rfl | ⟨t, rfl, ht⟩
    · rfl
    · unfold chunk_file
      dsimp only
      rw [ht]
      rfl
  refine ⟨hcf, ?_⟩
  unfold add_new_document chunksOfFile
  rw [hl]
  dsimp only
  rw [hcf]
  rfl

/-- C4 witness: a whitespace-only text file is skipped with no
mutation. -/
theorem C4_witness :
    chunk_file envC1 (some "   ") = [] ∧
    add_new_document envC1 "empty.txt" (st0 [("empty.txt", some "   ")])
      = (false, st0 [("empty.txt", some "   ")]) :=
  C4_empty_extraction_is_soft envC1 (some "   ") "empty.txt"
    (st0 [("empty.txt", some "   ")])
    (Or.inr ⟨"   ", rfl, by decide⟩) (by decide)

/-- C5: a delete whose ledger-driven rebuild produces zero chunks
removes the persisted index and chunk store artifacts (rather than
persisting an empty index), reports success, and a subsequent query
takes the no-documents prompt path. -/
theorem C5_delete_to_zero_chunks_clears (env : Env) (name : String) (s : St)
    (h : (removeMetaEntry name (removeFile name s)).metaFile.elim True
        (fun m => (rebuildScan env (removeFile name s).files m).1 = [])) :
    (delete_user_document env name s).1 = true ∧
    (delete_user_document env name s).2.indexFile = none ∧
    (delete_user_document env name s).2.chunksFile = none ∧
    (∀ env2 q, get_response_stream env2 q (delete_user_document env name s).2
        = (some (noDocsPrompt q), (delete_user_document env name s).2)) := by
  have hf : (removeMetaEntry name (removeFile name s)).files
      = (removeFile name s).files := removeMetaEntry_files _ _
  unfold delete_user_document rebuild_index_from_files
  cases hm : (removeMetaEntry name (removeFile name s)).metaFile with
  | none =>
    exact ⟨rfl, rfl, rfl, fun env2 q => query_no_index env2 q _ rfl⟩
  | some m =>
    rw [hm] at h
    simp only [Option.elim] at h
    rw [← hf] at h
    dsimp only
    rw [if_pos h]
    exact ⟨rfl, rfl, rfl, fun env2 q => query_no_index env2 q _ rfl⟩

/-- C5 witness: deleting the sole uploaded document. -/
theorem C5_witness :
    (delete_user_document envC1 "a.txt" stD).1 = true ∧
    (delete_user_document envC1 "a.txt" stD).2.indexFile = none ∧
    (delete_user_document envC1 "a.txt" stD).2.chunksFile = none ∧
    (∀ env2 q, get_response_stream env2 q (delete_user_document envC1 "a.txt" stD).2
        = (some (noDocsPrompt q), (delete_user_document envC1 "a.txt" stD).2)) :=
  C5_delete_to_zero_chunks_clears envC1 "a.txt" stD rfl

/-- C6 counterexample: a rebuild that fails (embedding provider down)
has already rewritten the ledger, so not all three persisted artifacts
are as they were before the rebuild started. -/
theorem C6_counterexample_ledger_rewritten :
    (rebuild_index_from_files envFail stC6).1 = false ∧
    (rebuild_index_from_files envFail stC6).2.metaFile ≠ stC6.metaFile := by decide

/-- C6 (amended): a failed ledger-driven rebuild leaves the persisted
Vector Index and Chunk Store exactly as they were (the fresh index is
built fully in memory before either is overwritten); the ledger,
however, is rewritten before the index build and may differ. -/
theorem C6_failed_rebuild_keeps_index_and_chunks (env : Env) (s : St)
    (h : (rebuild_index_from_files env s).1 = false) :
    (rebuild_index_from_files env s).2.indexFile = s.indexFile ∧
    (rebuild_index_from_files env s).2.chunksFile = s.chunksFile :=
  rebuild_fail_keeps_index_chunks env s h

/-- C6 witness: the amended statement at the concrete failing rebuild. -/
theorem C6_witness :
    (rebuild_index_from_files envFail stC6).2.indexFile = stC6.indexFile ∧
    (rebuild_index_from_files envFail stC6).2.chunksFile = stC6.chunksFile :=
  C6_failed_rebuild_keeps_index_and_chunks envFail stC6 (by decide)

/-- C7 (amended): when the embedding provider raises, an add aborts
with failure and leaves the whole persisted state unchanged, and a
ledger-driven rebuild with remaining chunks aborts with failure leaving
index and chunk store unchanged — but its ledger has already been
rewritten to the recomputed entries. -/
theorem C7_embed_failure_aborts :
    (∀ env name s, env.embedFails = true → add_new_document env name s = (false, s)) ∧
    (∀ env s m, env.embedFails = true → s.metaFile = some m →
        (rebuildScan env s.files m).1 ≠ [] →
        rebuild_index_from_files env s
          = (false, { s with metaFile := some (rebuildScan env s.files m).2 })) := by
  have henc : ∀ env (l : List String), env.embedFails = true → encode env l = none := by
    intro env l hEF
    simp [encode, hEF]
  have hb : ∀ env (l : List String), env.embedFails = true →
      build_faiss_index env l = none := by
    intro env l hEF
    unfold build_faiss_index
    rw [henc env l hEF]
    exact ite_self none
  constructor
  · intro env name s hEF
    unfold add_new_document
    dsimp only
    by_cases hcs : chunksOfFile env s.files name = []
    · rw [if_pos hcs]
    · rw [if_neg hcs]
      cases s.indexFile with
      | none =>
        dsimp only
        rw [hb env _ hEF]
      | some idx0 =>
        rcases hload : load_user_index env s with ⟨iOpt, cOpt⟩
        cases iOpt with
        | none =>
          dsimp only
          rw [hb env _ hEF]
        | some i0 =>
          dsimp only
          rw [henc env _ hEF]
  · intro env s m hEF hm h1
    unfold rebuild_index_from_files
    rw [hm]
    dsimp only
    rw [if_neg h1, hb env _ hEF]

/-- C7 counterexample: an embedding failure during a ledger-driven
rebuild aborts the rebuild, yet the on-disk ledger has changed. -/
theorem C7_counterexample_ledger_write :
    envFail.embedFails = true ∧
    (rebuild_index_from_files envFail stC7).1 = false ∧
    (rebuild_index_from_files envFail stC7).2.metaFile ≠ stC7.metaFile := by decide

/-- C7 witness: the amended statement at concrete failing inputs. -/
theorem C7_witness :
    add_new_document envFail "b.txt" stC7 = (false, stC7) ∧
    rebuild_index_from_files envFail stC7
      = (false, { stC7 with
          metaFile := some (rebuildScan envFail stC7.files
            [⟨"lost.txt", 1, "t0"⟩, ⟨"b.txt", 1, "t0"⟩]).2 }) :=
  ⟨C7_embed_failure_aborts.1 envFail "b.txt" stC7 rfl,
   C7_embed_failure_aborts.2 envFail stC7 [⟨"lost.txt", 1, "t0"⟩, ⟨"b.txt", 1, "t0"⟩]
     rfl rfl (by decide)⟩

/-- C9: ingesting a file that already has a ledger entry succeeds and
appends: a second ledger entry is added for the same filename and its
chunks are appended to both the index and the chunk store again. -/
theorem C9_duplicate_ingest_appends (env : Env) (F : String) (s : St)
    (m : List MetaEntry) (idx : List Vec) (oldCs : List String) (e : MetaEntry)
    (hEF : env.embedFails = false) (hLF : env.loadFails = false)
    (hm : s.metaFile = some m) (he : e ∈ m) (hf : e.file = F)
    (hi : s.indexFile = some idx) (hc : s.chunksFile = some oldCs)
    (hcs : chunksOfFile env s.files F ≠ []) :
    add_new_document env F s
      = (true, { s with
          indexFile := some (idx ++ (chunksOfFile env s.files F).map env.embed),
          chunksFile := some (oldCs ++ chunksOfFile env s.files F),
          metaFile := some (m ++ [⟨F, (chunksOfFile env s.files F).length, env.now⟩]) }) := by
  unfold add_new_document
  rw [if_neg hcs, hi]
  unfold load_user_index
  rw [hi, hc]
  simp only [hLF, Bool.false_eq_true, if_false, ite_false]
  simp only [encode, hEF, Bool.false_eq_true, if_false, ite_false]
  unfold update_metadata save_user_index
  dsimp only
  rw [hm]
  rfl

/-- C9 witness: re-ingesting the already indexed sole document. -/
theorem C9_witness :
    add_new_document envC1 "a.txt" stD
      = (true, { stD with
          indexFile := some ([[1], [1]] ++ (chunksOfFile envC1 stD.files "a.txt").map envC1.embed),
          chunksFile := some (["hello"] ++ chunksOfFile envC1 stD.files "a.txt"),
          metaFile := some ([⟨"a.txt", 1, "t0"⟩]
            ++ [⟨"a.txt", (chunksOfFile envC1 stD.files "a.txt").length, envC1.now⟩]) }) :=
  C9_duplicate_ingest_appends envC1 "a.txt" stD [⟨"a.txt", 1, "t0"⟩] [[1], [1]] ["hello"]
    ⟨"a.txt", 1, "t0"⟩ rfl rfl rfl (by decide) rfl rfl rfl (by decide)

/-- C10: deleting a document that is absent from disk and from the
ledger still reports success; and when the metadata file is missing
entirely, the delete clears the persisted index and chunk store
artifacts and reports success. -/
theorem C10_delete_missing_is_success :
    (∀ env name s, env.embedFails = false →
        List.lookup name s.files = none →
        s.metaFile.elim True (fun m => ∀ e ∈ m, e.file ≠ name) →
        (delete_user_document env name s).1 = true) ∧
    (∀ env name s, s.metaFile = none →
        delete_user_document env name s = (true, clear_user_index (removeFile name s))) := by
  constructor
  · intro env name s hEF _ _
    exact rebuild_ok_of_embed_ok env _ hEF
  · intro env name s hm
    unfold delete_user_document
    have h1 : removeMetaEntry name (removeFile name s) = removeFile name s := by
      unfold removeMetaEntry removeFile
      dsimp only
      rw [hm]
    rw [h1]
    unfold rebuild_index_from_files
    have h2 : (removeFile name s).metaFile = none := hm
    rw [h2]

/-- C10 witness: deleting a file that was never uploaded, and deleting
under a missing metadata file. -/
theorem C10_witness :
    (delete_user_document envC1 "nope.txt" stD).1 = true ∧
    delete_user_document envC1 "gone.txt" (st0 [("gone.txt", some "hello")])
      = (true, clear_user_index (removeFile "gone.txt" (st0 [("gone.txt", some "hello")]))) :=
  ⟨C10_delete_missing_is_success.1 envC1 "nope.txt" stD rfl (by decide)
      (by show ∀ e ∈ [MetaEntry.mk "a.txt" 1 "t0"], e.file ≠ "nope.txt"; decide),
   C10_delete_missing_is_success.2 envC1 "gone.txt" (st0 [("gone.txt", some "hello")]) rfl⟩

/-- The append path of add_new_document: with a loadable index and
chunk store, the new chunks and their embeddings are appended and one
ledger entry is added. -/
theorem add_append_path (env : Env) (F : String) (s : St)
    (m : List MetaEntry) (idx : List Vec) (oldCs : List String)
    (hEF : env.embedFails = false) (hLF : env.loadFails = false)
    (hm : s.metaFile = some m) (hi : s.indexFile = some idx)
    (hc : s.chunksFile = some oldCs)
    (hcs : chunksOfFile env s.files F ≠ []) :
    add_new_document env F s
      = (true, { s with
          indexFile := some (idx ++ (chunksOfFile env s.files F).map env.embed),
          chunksFile := some (oldCs ++ chunksOfFile env s.files F),
          metaFile := some (m ++ [⟨F, (chunksOfFile env s.files F).length, env.now⟩]) }) := by
  unfold add_new_document
  rw [if_neg hcs, hi]
  unfold load_user_index
  rw [hi, hc]
  simp only [hLF, Bool.false_eq_true, if_false, ite_false]
  simp only [encode, hEF, Bool.false_eq_true, if_false, ite_false]
  unfold update_metadata save_user_index
  dsimp only
  rw [hm]
  rfl

/-- The first-build path of add_new_document: with no persisted index,
the chunks are embedded inside build_faiss_index and then appended a
second time by the shared append block. -/
theorem add_fresh_path (env : Env) (F : String) (s : St)
    (hEF : env.embedFails = false)
    (hi : s.indexFile = none)
    (hcs : chunksOfFile env s.files F ≠ []) :
    add_new_document env F s
      = (true, { s with
          indexFile := some ((chunksOfFile env s.files F).map env.embed
            ++ (chunksOfFile env s.files F).map env.embed),
          chunksFile := some (chunksOfFile env s.files F),
          metaFile := some ((s.metaFile.getD [])
            ++ [⟨F, (chunksOfFile env s.files F).length, env.now⟩]) }) := by
  unfold add_new_document
  rw [if_neg hcs, hi]
  dsimp only
  have hb : build_faiss_index env (chunksOfFile env s.files F)
      = some ((chunksOfFile env s.files F).map env.embed) := by
    unfold build_faiss_index encode
    rw [if_neg hcs]
    simp [hEF]
  rw [hb]
  simp only [encode, hEF, Bool.false_eq_true, if_false, ite_false]
  rfl

/-- Chunk sequence of one more incrementally added file. -/
theorem incrChunks_append (env : Env) (files : List (String × Option String))
    (ns : List String) (n : String) :
    incrChunks env files (ns ++ [n])
      = incrChunks env files ns ++ chunksOfFile env files n := by
  simp [incrChunks]

/-- Ledger of one more incrementally added file. -/
theorem incrMeta_append (env : Env) (files : List (String × Option String))
    (ns : List String) (n : String) :
    incrMeta env files (ns ++ [n])
      = incrMeta env files ns ++
        (if chunksOfFile env files n = [] then []
         else [⟨n, (chunksOfFile env files n).length, env.now⟩]) := by
  unfold incrMeta
  rw [List.filterMap_append]
  congr 1
  by_cases h : chunksOfFile env files n = [] <;> simp [List.filterMap_cons, h]

/-- When incremental adding produced no chunks at all, it also produced
no ledger entries. -/
theorem incrMeta_eq_nil (env : Env) (files : List (String × Option String)) :
    ∀ ns, incrChunks env files ns = [] → incrMeta env files ns = [] := by
  intro ns
  induction ns with
  | nil => intro _; rfl
  | cons k ks ih =>
    intro h
    have h2 : chunksOfFile env files k = [] ∧ incrChunks env files ks = [] := by
      simpa [incrChunks, List.append_eq_nil] using h
    have h3 := ih h2.2
    unfold incrMeta at h3 ⊢
    rw [List.filterMap_cons]
    simp [h2.1, h3]

/-- The invariant maintained while incrementally adding files from the
empty persisted state: either nothing was indexed yet, or the persisted
chunk store and ledger are exactly the incremental ones. -/
def AddInv (env : Env) (files : List (String × Option String))
    (names : List String) (s : St) : Prop :=
  s.files = files ∧
  (incrChunks env files names = [] → s = st0 files) ∧
  (incrChunks env files names ≠ [] →
    (∃ idx, s.indexFile = some idx) ∧
    s.chunksFile = some (incrChunks env files names) ∧
    s.metaFile = some (incrMeta env files names))

/-- One add_new_document step preserves the incremental invariant. -/
theorem addInv_step (env : Env) (files : List (String × Option String))
    (done : List String) (n : String) (s : St)
    (hEF : env.embedFails = false) (hLF : env.loadFails = false)
    (h : AddInv env files done s) :
    AddInv env files (done ++ [n]) (add_new_document env n s).2 := by
  obtain ⟨hfiles, h0, h1⟩ := h
  by_cases hcs : chunksOfFile env files n = []
  · have hadd : add_new_document env n s = (false, s) := by
      unfold add_new_document
      rw [hfiles, if_pos hcs]
    rw [hadd]
    refine ⟨hfiles, ?_, ?_⟩
    · intro h'
      apply h0
      rwa [incrChunks_append, hcs, List.append_nil] at h'
    · intro h'
      have h'' : incrChunks env files done ≠ [] := by
        rwa [incrChunks_append, hcs, List.append_nil] at h'
      obtain ⟨hidx, hch, hmeta⟩ := h1 h''
      refine ⟨hidx, ?_, ?_⟩
      · rw [incrChunks_append, hcs, List.append_nil]
        exact hch
      · rw [incrMeta_append, if_pos hcs, List.append_nil]
        exact hmeta
  · have hne : incrChunks env files (done ++ [n]) ≠ [] := by
      rw [incrChunks_append]
      intro hx
      exact hcs (List.append_eq_nil.mp hx).2
    by_cases hdone : incrChunks env files done = []
    · have hs : s = st0 files := h0 hdone
      subst hs
      have hadd := add_fresh_path env n (st0 files) hEF rfl hcs
      rw [hadd]
      refine ⟨rfl, fun h' => absurd h' hne, fun _ => ⟨⟨_, rfl⟩, ?_, ?_⟩⟩
      · show some (chunksOfFile env files n) = some (incrChunks env files (done ++ [n]))
        rw [incrChunks_append, hdone, List.nil_append]
      · show some ([] ++ [⟨n, (chunksOfFile env files n).length, env.now⟩])
            = some (incrMeta env files (done ++ [n]))
        rw [incrMeta_append, if_neg hcs, incrMeta_eq_nil env files done hdone]
    · obtain ⟨⟨idx, hidx⟩, hch, hmeta⟩ := h1 hdone
      have hcs' : chunksOfFile env s.files n ≠ [] := by rwa [hfiles]
      have hadd := add_append_path env n s (incrMeta env files done) idx
        (incrChunks env files done) hEF hLF hmeta hidx hch hcs'
      rw [hadd]
      refine ⟨hfiles, fun h' => absurd h' hne, fun _ => ⟨⟨_, rfl⟩, ?_, ?_⟩⟩
      · show some (incrChunks env files done ++ chunksOfFile env s.files n)
            = some (incrChunks env files (done ++ [n]))
        rw [incrChunks_append, hfiles]
      · show some (incrMeta env files done
              ++ [⟨n, (chunksOfFile env s.files n).length, env.now⟩])
            = some (incrMeta env files (done ++ [n]))
        rw [incrMeta_append, if_neg hcs, hfiles]

/-- Unfolding one incremental add. -/
theorem addAll_cons (env : Env) (n : String) (ns : List String) (s : St) :
    addAll env (n :: ns) s = addAll env ns (add_new_document env n s).2 := rfl

/-- Folding the incremental invariant over a list of adds. -/
theorem addInv_run (env : Env) (files : List (String × Option String))
    (hEF : env.embedFails = false) (hLF : env.loadFails = false) :
    ∀ names done s, AddInv env files done s →
      AddInv env files (done ++ names) (addAll env names s) := by
  intro names
  induction names with
  | nil =>
    intro done s h
    simpa [addAll] using h
  | cons n ns ih =>
    intro done s h
    have h2 := addInv_step env files done n s hEF hLF h
    have h3 := ih (done ++ [n]) _ h2
    rw [List.append_assoc] at h3
    rw [addAll_cons]
    exact h3

/-- The incremental invariant over a full add sequence from the empty
state. -/
theorem addAll_inv (env : Env) (files : List (String × Option String))
    (names : List String)
    (hEF : env.embedFails = false) (hLF : env.loadFails = false) :
    AddInv env files names (addAll env names (st0 files)) := by
  have h0 : AddInv env files [] (st0 files) :=
    ⟨rfl, fun _ => rfl, fun h => absurd rfl h⟩
  have h := addInv_run env files hEF hLF names [] (st0 files) h0
  simpa using h

/-- Scanning the incrementally built ledger re-chunks every entry to
exactly its incremental chunks and reproduces the ledger. -/
theorem rebuildScan_incrMeta (env : Env) (files : List (String × Option String)) :
    ∀ names, rebuildScan env files (incrMeta env files names)
      = (incrChunks env files names, incrMeta env files names) := by
  intro names
  induction names with
  | nil => rfl
  | cons n ns ih =>
    by_cases h : chunksOfFile env files n = []
    · have h1 : incrMeta env files (n :: ns) = incrMeta env files ns := by
        simp [incrMeta, List.filterMap_cons, h]
      have h2 : incrChunks env files (n :: ns) = incrChunks env files ns := by
        simp [incrChunks, h]
      rw [h1, h2, ih]
    · obtain ⟨ext, hl, hcf⟩ : ∃ ext, List.lookup n files = some ext
          ∧ chunk_file env ext = chunksOfFile env files n := by
        unfold chunksOfFile at h ⊢
        cases hl : List.lookup n files with
        | none => rw [hl] at h; exact absurd rfl h
        | some ext => exact ⟨ext, rfl, rfl⟩
      have h1 : incrMeta env files (n :: ns)
          = ⟨n, (chunksOfFile env files n).length, env.now⟩ :: incrMeta env files ns := by
        simp [incrMeta, List.filterMap_cons, h]
      have h2 : incrChunks env files (n :: ns)
          = chunksOfFile env files n ++ incrChunks env files ns := by
        simp [incrChunks]
      rw [h1, h2]
      unfold rebuildScan
      rw [hl]
      dsimp only
      rw [hcf, if_neg h, ih, ite_self]

/-- The recomputed ledger of a rebuild scan drops exactly the entries
whose file is missing on disk and refreshes the counts of the rest,
provided every present entry re-chunks to something nonempty. -/
theorem rebuildScan_filterMap (env : Env) (files : List (String × Option String)) :
    ∀ m : List MetaEntry,
      (∀ e ∈ m, List.lookup e.file files = none ∨ chunksOfFile env files e.file ≠ []) →
      (rebuildScan env files m).2
        = m.filterMap (fun e =>
            match List.lookup e.file files with
            | none => none
            | some ext =>
              some ⟨e.file, (chunk_file env ext).length,
                if e.uploadedAt = "" then env.now else e.uploadedAt⟩) := by
  intro m
  induction m with
  | nil => intro _; rfl
  | cons e rest ih =>
    intro h
    have hrest := fun e' he' => h e' (List.mem_cons_of_mem _ he')
    have hh := h e (List.mem_cons_self _ _)
    cases hl : List.lookup e.file files with
    | none =>
      unfold rebuildScan
      rw [hl, List.filterMap_cons]
      dsimp only
      rw [hl]
      exact ih hrest
    | some ext =>
      have hne : chunk_file env ext ≠ [] := by
        rcases hh with hnone | hcs
        · rw [hl] at hnone
          exact absurd hnone (by simp)
        · unfold chunksOfFile at hcs
          rw [hl] at hcs
          exact hcs
      unfold rebuildScan
      rw [hl, List.filterMap_cons]
      dsimp only
      rw [hl]
      dsimp only
      rw [if_neg hne, ih hrest]

/-- C8: rebuilding from the ledger written by incrementally adding a
list of files (in order, from the empty state) reproduces exactly the
incrementally persisted chunk sequence; and any rebuild silently drops
the ledger entries whose file is missing on disk while recomputing the
chunk counts of the remaining entries from the fresh chunking. -/
theorem C8_rebuild_equivalence :
    (∀ env files names, env.embedFails = false → env.loadFails = false →
        (rebuild_index_from_files env (addAll env names (st0 files))).2.chunksFile
          = (addAll env names (st0 files)).chunksFile) ∧
    (∀ env s m, s.metaFile = some m →
        (∀ e ∈ m, List.lookup e.file s.files = none
          ∨ chunksOfFile env s.files e.file ≠ []) →
        (rebuild_index_from_files env s).2.metaFile
          = some (m.filterMap (fun e =>
              match List.lookup e.file s.files with
              | none => none
              | some ext =>
                some ⟨e.file, (chunk_file env ext).length,
                  if e.uploadedAt = "" then env.now else e.uploadedAt⟩))) := by
  constructor
  · intro env files names hEF hLF
    obtain ⟨hfiles, h0, h1⟩ := addAll_inv env files names hEF hLF
    by_cases hC : incrChunks env files names = []
    · rw [h0 hC]
      rfl
    · obtain ⟨⟨idx, hidx⟩, hch, hmeta⟩ := h1 hC
      unfold rebuild_index_from_files
      rw [hmeta]
      dsimp only
      rw [hfiles, rebuildScan_incrMeta env files names]
      dsimp only
      rw [if_neg hC]
      have hb : build_faiss_index env (incrChunks env files names)
          = some ((incrChunks env files names).map env.embed) := by
        unfold build_faiss_index encode
        rw [if_neg hC]
        simp [hEF]
      rw [hb]
      dsimp only [save_user_index]
      rw [hch]
  · intro env s m hm h
    rw [rebuild_metaFile env s m hm, rebuildScan_filterMap env s.files m h]

/-- Uploaded files for the C8 witness. -/
def filesC8 : List (String × Option String) :=
  [("a.txt", some "hello"), ("b.txt", some "bye")]

/-- C8 witness: two concrete files added in order then rebuilt, and a
concrete ledger scan with a missing file. -/
theorem C8_witness :
    (rebuild_index_from_files envC1 (addAll envC1 ["a.txt", "b.txt"] (st0 filesC8))).2.chunksFile
      = (addAll envC1 ["a.txt", "b.txt"] (st0 filesC8)).chunksFile ∧
    (rebuild_index_from_files envC1 stC6).2.metaFile
      = some (([⟨"gone.txt", 2, "t0"⟩, ⟨"a.txt", 1, "t0"⟩] : List MetaEntry).filterMap
          (fun e =>
            match List.lookup e.file stC6.files with
            | none => none
            | some ext =>
              some ⟨e.file, (chunk_file envC1 ext).length,
                if e.uploadedAt = "" then envC1.now else e.uploadedAt⟩)) :=
  ⟨C8_rebuild_equivalence.1 envC1 filesC8 ["a.txt", "b.txt"] rfl rfl,
   C8_rebuild_equivalence.2 envC1 stC6 [⟨"gone.txt", 2, "t0"⟩, ⟨"a.txt", 1, "t0"⟩]
     rfl (by decide)⟩

/-- Filtering the projected positions of scored rows equals projecting
the filtered rows. -/
theorem filter_map_fst (l : List (Nat × ℚ)) (p : Nat → Bool) :
    (l.map Prod.fst).filter p = (l.filter (fun x => p x.1)).map Prod.fst := by
  induction l with
  | nil => rfl
  | cons a l ih =>
    by_cases h : p a.1 = true
    · simp [List.filter_cons, h, ih]
    · simp [List.filter_cons, h, ih]

/-- C3: the code's prompt selection coincides with the specified
retrieval policy (search k = 3, discard positions at or above the chunk
count, ungrounded when the survivors are empty or the nearest distance
exceeds 1.2, else grounded over the surviving chunks nearest-first),
and the search results are in ascending distance order. -/
theorem C3_retrieval_policy (rows : List Vec) (cs : List String) (qv : Vec) (q : String) :
    selectPrompt rows cs qv q = claimRetrieval rows cs qv q ∧
    List.Sorted distLE (searchL2 rows qv 3) := by
  constructor
  · unfold selectPrompt claimRetrieval
    dsimp only
    rw [filter_map_fst]
    simp only [List.map_map, List.map_eq_nil_iff]
    rfl
  · unfold searchL2
    exact List.Pairwise.sublist (List.take_sublist _ _)
      (List.sorted_insertionSort distLE _)

/-- C2 witness: a concrete mismatched state is repaired, and a load
failure degrades to the no-documents prompt. -/
theorem C2_witness :
    (queryCore envC1 stM
        = (some ((["hello", "hi"]).map envC1.embed, ["hello", "hi"]),
            save_user_index ((["hello", "hi"]).map envC1.embed) ["hello", "hi"] stM) ∧
      ((["hello", "hi"] : List String).map envC1.embed).length
        = (["hello", "hi"] : List String).length) ∧
    get_response_stream envLoadFail "q" stM = (some (noDocsPrompt "q"), stM) :=
  ⟨C2_mismatch_repair.1 envC1 stM [[5]] ["hello", "hi"] rfl rfl rfl rfl
      (by decide) (by decide),
   C2_mismatch_repair.2 envLoadFail "q" stM rfl⟩

end Rag
